import Mathlib

/-!
Shallow embedding of the caching and poll-based fetch layer of a
client-side bug dashboard: an in-memory TTL cache (association-list model
of a JS Map with string keys), the cache-key builder, the cached-fetch
wrapper, the Bugzilla domain query functions, the dashboard refresh
handlers, and the STMO poll-based query client.

JS null/undefined is modelled by the distinguished value `JsVal.null`;
time is an explicit natural-number parameter standing for `Date.now()`;
network requests are modelled by passing the would-be response as data.
-/

/-- Dynamically typed JS values that flow through the cache. `JsVal.null`
stands for JS null (and undefined), which the cache API also uses as its
absence marker. Payloads (bug arrays, result rows) are opaque to the
caching core, so an array is modelled by the list of its records' ids. -/
inductive JsVal where
  | null : JsVal
  | bool (b : Bool) : JsVal
  | num (n : Nat) : JsVal
  | str (s : String) : JsVal
  | arr (xs : List Nat) : JsVal
  deriving Repr, DecidableEq

/-- Lookup in an association-list model of a JS Map (`Map.get`). -/
def assocFind {α : Type} : List (String × α) → String → Option α
  | [], _ => none
  | (k, v) :: rest, key => if k = key then some v else assocFind rest key

/-- JS `Map.set`: replace the entry in place when the key is present,
otherwise append a new entry. -/
def assocSet {α : Type} : List (String × α) → String → α → List (String × α)
  | [], key, v => [(key, v)]
  | (k, w) :: rest, key, v =>
      if k = key then (key, v) :: rest else (k, w) :: assocSet rest key v

/-- JS `Map.delete`: remove the entry for the key when present. -/
def assocDelete {α : Type} : List (String × α) → String → List (String × α)
  | [], _ => []
  | (k, w) :: rest, key =>
      if k = key then rest else (k, w) :: assocDelete rest key

/-- One stored cache record: `{ data, expiry, cachedAt }` in src. -/
structure CacheEntry where
  data : JsVal
  expiry : Nat
  cachedAt : Nat
  deriving Repr, DecidableEq

/-- The module-level `cache` Map of the cache utility. -/
abbrev Cache := List (String × CacheEntry)

/-- Default TTL: 5 minutes in milliseconds. -/
def CACHE_TTL : Nat := 5 * 60 * 1000

/-- JS `Array.prototype.join` with a separator string. -/
def joinSep (sep : String) : List String → String
  | [] => ""
  | [x] => x
  | x :: y :: xs => x ++ sep ++ joinSep sep (y :: xs)

/-- Cache-key builder `generateCacheKey(prefix, params)`: sort the
parameter names lexicographically, render each as key=value, join with
an ampersand and prepend the namespace tag. -/
def generateCacheKey (ns : String) (params : List (String × String)) : String :=
  let sortedParams :=
    joinSep "&" (((params.map Prod.fst).insertionSort (fun a b => a ≤ b)).map
      (fun key => key ++ "=" ++ (assocFind params key).getD "undefined"))
  ns ++ ":" ++ sortedParams

/-- `getCached(key)`: absent gives null; an expired entry is deleted as a
side effect and null is returned; otherwise the stored data is returned.
The returned pair carries the (possibly updated) cache. -/
def getCached (c : Cache) (now : Nat) (key : String) : JsVal × Cache :=
  match assocFind c key with
  | none => (JsVal.null, c)
  | some cached =>
      if now > cached.expiry then (JsVal.null, assocDelete c key)
      else (cached.data, c)

/-- `setCache(key, data, ttl)`: store with `expiry = now + ttl`. -/
def setCache (c : Cache) (now : Nat) (key : String) (data : JsVal) (ttl : Nat) : Cache :=
  assocSet c key ⟨data, now + ttl, now⟩

/-- `clearCache(key)`. -/
def clearCache (c : Cache) (key : String) : Cache :=
  assocDelete c key

/-- `clearAllCache()`. -/
def clearAllCache (_c : Cache) : Cache := []

/-- Result shape of `getCacheStats()`. -/
structure CacheStats where
  size : Nat
  keys : List String
  deriving Repr, DecidableEq

/-- `getCacheStats()`: size and key list of the cache Map. -/
def getCacheStats (c : Cache) : CacheStats :=
  ⟨c.length, c.map Prod.fst⟩

/-- `cachedFetch(cacheKey, fetchFunction, ttl)`. The producer is modelled
by its outcome; the third component of the result counts how many times
the producer ran (0 on a hit, 1 otherwise). A hit is detected by
comparing the lookup result against null (`cached !== null`). -/
def cachedFetch (c : Cache) (now : Nat) (key : String)
    (producer : Except String JsVal) (ttl : Nat) :
    Except String JsVal × Cache × Nat :=
  let looked := getCached c now key
  if looked.1 ≠ JsVal.null then (Except.ok looked.1, looked.2, 0)
  else
    match producer with
    | Except.error e => (Except.error e, looked.2, 1)
    | Except.ok data => (Except.ok data, setCache looked.2 now key data ttl, 1)

/-- JS object spread `{ ...base, ...extra }` on string-keyed records:
later keys override earlier ones in place. -/
def objSpread (base extra : List (String × String)) : List (String × String) :=
  extra.foldl (fun acc kv => assocSet acc kv.1 kv.2) base

/-- `fetchBugsByPerformanceImpact(impactLevel, additionalParams, useCache)`:
with `useCache = false` the network fetch runs directly; otherwise the
call goes through `cachedFetch` under the perf-impact cache key. -/
def fetchBugsByPerformanceImpact (impactLevel : String)
    (additionalParams : List (String × String)) (useCache : Bool)
    (c : Cache) (now : Nat) (network : Except String JsVal) (ttl : Nat) :
    Except String JsVal × Cache × Nat :=
  if useCache = false then (network, c, 1)
  else
    let cacheKey := generateCacheKey "perf-impact"
      (objSpread [("impactLevel", impactLevel)] additionalParams)
    cachedFetch c now cacheKey network ttl

/-- `fetchAllPerformanceImpactBugs(additionalParams, useCache)`. -/
def fetchAllPerformanceImpactBugs (additionalParams : List (String × String))
    (useCache : Bool) (c : Cache) (now : Nat) (network : Except String JsVal)
    (ttl : Nat) : Except String JsVal × Cache × Nat :=
  if useCache = false then (network, c, 1)
  else
    let cacheKey := generateCacheKey "perf-impact"
      (objSpread [("all", "true")] additionalParams)
    cachedFetch c now cacheKey network ttl

/-- `fetchBugsByIds(bugIds, useCache)`: empty input short-circuits to an
empty array; `useCache = false` fetches directly; otherwise the call goes
through `cachedFetch` under the priority-bugs key built from the sorted,
comma-joined ids. -/
def fetchBugsByIds (bugIds : List String) (useCache : Bool)
    (c : Cache) (now : Nat) (network : Except String JsVal) (ttl : Nat) :
    Except String JsVal × Cache × Nat :=
  if bugIds.isEmpty then (Except.ok (JsVal.arr []), c, 0)
  else if useCache = false then (network, c, 1)
  else
    let cacheKey := generateCacheKey "priority-bugs"
      [("ids", joinSep "," (bugIds.insertionSort (fun a b => a ≤ b)))]
    cachedFetch c now cacheKey network ttl

/-- `clearPerformanceImpactCache(impactLevel)`: with a level, clear the
key derived through `generateCacheKey`; with no level, clear the three
literal keys perf-impact:high, perf-impact:medium, perf-impact:low. -/
def clearPerformanceImpactCache (c : Cache) (impactLevel : Option String) : Cache :=
  match impactLevel with
  | some lvl => clearCache c (generateCacheKey "perf-impact" [("impactLevel", lvl)])
  | none =>
      clearCache (clearCache (clearCache c "perf-impact:high") "perf-impact:medium")
        "perf-impact:low"

/-- Dashboard handler `handleRefreshPerfImpact`: clear the cache entry for
the current level, then fetch live with `useCache = false`. Only its
result and cache effect are modelled. -/
def handleRefreshPerfImpact (c : Cache) (now : Nat) (perfImpactLevel : String)
    (network : Except String JsVal) : Except String JsVal × Cache :=
  let c1 := clearPerformanceImpactCache c (some perfImpactLevel)
  let r := fetchBugsByPerformanceImpact perfImpactLevel [] false c1 now network CACHE_TTL
  (r.1, r.2.1)

/-- Dashboard handler `handleRefreshPriorityBugs`: with no ids it returns
early; otherwise it fetches live with `useCache = false`. It performs no
cache invalidation. -/
def handleRefreshPriorityBugs (c : Cache) (now : Nat) (priorityBugIds : List String)
    (network : Except String JsVal) : Except String JsVal × Cache :=
  if priorityBugIds.isEmpty then (Except.ok JsVal.null, c)
  else
    let r := fetchBugsByIds priorityBugIds false c now network CACHE_TTL
    (r.1, r.2.1)

/-- Poll bound of the STMO client. -/
def MAX_POLL_ATTEMPTS : Nat := 12

/-- Fixed inter-attempt delay of the STMO client, in milliseconds. -/
def POLL_INTERVAL_MS : Nat := 5000

/-- The JSON body POSTed by the STMO client; built once per call. -/
structure StmoRequest where
  snapshotDate : String
  max_age : Nat
  deriving Repr, DecidableEq

/-- The `data` member of a completed query result; `rows` may be absent. -/
structure RowsData where
  rows : Option (List JsVal)
  deriving Repr, DecidableEq

/-- The `query_result` member of a response; its `data` member may be
absent, in which case reading `.rows` from it throws a TypeError. -/
structure QueryResultPayload where
  data : Option RowsData
  deriving Repr, DecidableEq

/-- One HTTP response of the STMO backend as seen by the client. -/
structure StmoResponse where
  ok : Bool
  status : Nat
  statusText : String
  query_result : Option QueryResultPayload
  job : Bool
  deriving Repr, DecidableEq

/-- Terminal outcomes of one `fetchBenchmarkRows` call. `typeError` is
the JS TypeError thrown by reading `.rows` of an absent `data` object. -/
inductive PollOutcome where
  | rows (rs : List JsVal)
  | apiError (status : Nat) (statusText : String)
  | timedOut
  | unexpectedFormat
  | typeError
  | exceededMaxAttempts
  deriving Repr, DecidableEq

/-- Observable trace of one `fetchBenchmarkRows` call: outcome, the
request bodies sent (one per submission, in order) and the sleep
durations performed (in order). -/
structure PollTrace where
  outcome : PollOutcome
  requests : List StmoRequest
  delays : List Nat
  deriving Repr, DecidableEq

/-- The poll loop of `fetchBenchmarkRows`, from a given attempt index with
the remaining loop iterations as fuel (`fuel = MAX_POLL_ATTEMPTS - attempt`).
The same request body, built before the loop, is sent on every submission. -/
def pollFrom (responses : Nat → StmoResponse) (body : StmoRequest) :
    Nat → Nat → PollTrace
  | _, 0 => ⟨PollOutcome.exceededMaxAttempts, [], []⟩
  | attempt, fuel + 1 =>
    let resp := responses attempt
    if resp.ok = false then
      ⟨PollOutcome.apiError resp.status resp.statusText, [body], []⟩
    else
      match resp.query_result with
      | some qr =>
          match qr.data with
          | none => ⟨PollOutcome.typeError, [body], []⟩
          | some d => ⟨PollOutcome.rows (d.rows.getD []), [body], []⟩
      | none =>
          if resp.job then
            if attempt < MAX_POLL_ATTEMPTS - 1 then
              let t := pollFrom responses body (attempt + 1) fuel
              ⟨t.outcome, body :: t.requests, POLL_INTERVAL_MS :: t.delays⟩
            else ⟨PollOutcome.timedOut, [body], []⟩
          else ⟨PollOutcome.unexpectedFormat, [body], []⟩

/-- `fetchBenchmarkRows(snapshotDate)`: build the body once with
`max_age = 86400`, then run the bounded poll loop. The backend is
modelled as a function from submission index to response. -/
def fetchBenchmarkRows (responses : Nat → StmoResponse) (snapshotDate : String) : PollTrace :=
  pollFrom responses ⟨snapshotDate, 86400⟩ 0 MAX_POLL_ATTEMPTS

/-- A backend response carrying only a job reference. -/
def jobResponse : StmoResponse :=
  ⟨true, 200, "OK", none, true⟩

/-- A backend response carrying a completed result with the given rows. -/
def resultResponse (rs : List JsVal) : StmoResponse :=
  ⟨true, 200, "OK", some ⟨some ⟨some rs⟩⟩, false⟩

/-! ### Association-list lemmas -/

theorem assocFind_assocSet_self {α : Type} (m : List (String × α)) (k : String) (v : α) :
    assocFind (assocSet m k v) k = some v := by
  induction m with
  | nil => simp [assocSet, assocFind]
  | cons hd tl ih =>
      obtain ⟨k1, w⟩ := hd
      by_cases h : k1 = k
      · simp [assocSet, h, assocFind]
      · simp [assocSet, h, assocFind, ih]

theorem assocFind_assocDelete_ne {α : Type} (m : List (String × α)) {k k2 : String}
    (h : k ≠ k2) : assocFind (assocDelete m k2) k = assocFind m k := by
  induction m with
  | nil => simp [assocDelete]
  | cons hd tl ih =>
      obtain ⟨k1, w⟩ := hd
      by_cases h1 : k1 = k2
      · subst h1
        have h2 : k1 ≠ k := fun he => h (he ▸ rfl)
        simp [assocDelete, assocFind, h2]
      · simp [assocDelete, h1, assocFind, ih]

theorem mem_of_assocFind_eq_some {α : Type} {m : List (String × α)} {k : String} {v : α}
    (h : assocFind m k = some v) : (k, v) ∈ m := by
  induction m with
  | nil => simp [assocFind] at h
  | cons hd tl ih =>
      obtain ⟨k1, w⟩ := hd
      by_cases h1 : k1 = k
      · subst h1
        simp [assocFind] at h
        subst h
        exact List.mem_cons_self _ _
      · simp [assocFind, h1] at h
        exact List.mem_cons_of_mem _ (ih h)

theorem assocFind_eq_none_iff {α : Type} {m : List (String × α)} {k : String} :
    assocFind m k = none ↔ k ∉ m.map Prod.fst := by
  induction m with
  | nil => simp [assocFind]
  | cons hd tl ih =>
      obtain ⟨k1, w⟩ := hd
      by_cases h1 : k1 = k
      · subst h1
        simp [assocFind]
      · simp [assocFind, h1, ih, Ne.symm h1]

theorem assocFind_eq_some_of_mem {α : Type} {m : List (String × α)} {k : String} {v : α}
    (hnd : (m.map Prod.fst).Nodup) (h : (k, v) ∈ m) : assocFind m k = some v := by
  induction m with
  | nil => simp at h
  | cons hd tl ih =>
      obtain ⟨k1, w⟩ := hd
      simp at hnd
      rcases List.mem_cons.mp h with heq | hmem
      · cases heq
        simp [assocFind]
      · have hk1 : k1 ≠ k := by
          intro he
          subst he
          exact hnd.1 v hmem
        simp [assocFind, hk1]
        exact ih hnd.2 hmem

theorem assocFind_perm {α : Type} {m1 m2 : List (String × α)} (hp : m1.Perm m2)
    (hnd : (m1.map Prod.fst).Nodup) (k : String) : assocFind m1 k = assocFind m2 k := by
  have hnd2 : (m2.map Prod.fst).Nodup := (hp.map Prod.fst).nodup_iff.mp hnd
  cases hfind : assocFind m1 k with
  | none =>
      rw [assocFind_eq_none_iff] at hfind
      have : k ∉ m2.map Prod.fst := fun hmem =>
        hfind ((hp.map Prod.fst).mem_iff.mpr hmem)
      exact (assocFind_eq_none_iff.mpr this).symm
  | some v =>
      have hmem : (k, v) ∈ m2 := hp.mem_iff.mp (mem_of_assocFind_eq_some hfind)
      exact (assocFind_eq_some_of_mem hnd2 hmem).symm

theorem assocSet_map_fst {α : Type} (m : List (String × α)) (k : String) (v : α) :
    (assocSet m k v).map Prod.fst =
      if k ∈ m.map Prod.fst then m.map Prod.fst else m.map Prod.fst ++ [k] := by
  induction m with
  | nil => simp [assocSet]
  | cons hd tl ih =>
      obtain ⟨k1, w⟩ := hd
      by_cases h1 : k1 = k
      · subst h1
        simp [assocSet]
      · by_cases h2 : k ∈ tl.map Prod.fst <;>
          simp [assocSet, h1, ih, h2, Ne.symm h1]

theorem assocSet_nodup {α : Type} {m : List (String × α)} (k : String) (v : α)
    (h : (m.map Prod.fst).Nodup) : ((assocSet m k v).map Prod.fst).Nodup := by
  rw [assocSet_map_fst]
  by_cases h2 : k ∈ m.map Prod.fst
  · simpa [h2] using h
  · simp [h2, List.nodup_append, h]

theorem not_mem_assocDelete_map_fst {α : Type} {m : List (String × α)} {k : String}
    (h : (m.map Prod.fst).Nodup) : k ∉ (assocDelete m k).map Prod.fst := by
  induction m with
  | nil => simp [assocDelete]
  | cons hd tl ih =>
      obtain ⟨k1, w⟩ := hd
      simp at h
      by_cases h1 : k1 = k
      · subst h1
        simpa [assocDelete] using h.1
      · simp [assocDelete, h1, Ne.symm h1]
        intro x
        have := ih h.2
        simp at this
        exact this x

theorem assocFind_assocDelete_self {α : Type} {m : List (String × α)} {k : String}
    (h : (m.map Prod.fst).Nodup) : assocFind (assocDelete m k) k = none :=
  assocFind_eq_none_iff.mpr (not_mem_assocDelete_map_fst h)

/-! ### Cache lemmas -/

theorem getCached_miss_again {c : Cache} {now : Nat} {key : String}
    (hnd : (c.map Prod.fst).Nodup) (h : (getCached c now key).1 = JsVal.null) :
    (getCached (getCached c now key).2 now key).1 = JsVal.null := by
  cases hfind : assocFind c key with
  | none => simp [getCached, hfind]
  | some e =>
      by_cases hexp : now > e.expiry
      · have : (getCached c now key).2 = assocDelete c key := by
          simp [getCached, hfind, hexp]
        rw [this]
        simp [getCached, assocFind_assocDelete_self hnd]
      · have : getCached c now key = (e.data, c) := by
          simp [getCached, hfind, hexp]
        rw [this] at h ⊢
        simp [getCached, hfind, hexp, h]

/-! ### Poll-loop lemmas -/

theorem pollFrom_all_job (responses : Nat → StmoResponse) (body : StmoRequest)
    (h : ∀ i, responses i = jobResponse) :
    ∀ fuel attempt, attempt + fuel = MAX_POLL_ATTEMPTS → 0 < fuel →
      pollFrom responses body attempt fuel =
        ⟨PollOutcome.timedOut, List.replicate fuel body,
          List.replicate (fuel - 1) POLL_INTERVAL_MS⟩ := by
  intro fuel
  induction fuel with
  | zero =>
      intro attempt _ h0
      exact absurd h0 (lt_irrefl 0)
  | succ n ih =>
      intro attempt hsum _
      rw [pollFrom]
      cases n with
      | zero =>
          have ha : attempt = 11 := by
            simp [MAX_POLL_ATTEMPTS] at hsum
            omega
          subst ha
          simp [h 11, jobResponse, MAX_POLL_ATTEMPTS]
      | succ m =>
          have hlt : attempt < MAX_POLL_ATTEMPTS - 1 := by
            simp [MAX_POLL_ATTEMPTS] at hsum ⊢
            omega
          rw [ih (attempt + 1) (by omega) (by omega)] at *
          simp [h attempt, jobResponse, hlt, List.replicate_succ]

theorem pollFrom_job_then_result (responses : Nat → StmoResponse) (body : StmoRequest)
    (rs : List JsVal) (h : ∀ i, i < 11 → responses i = jobResponse)
    (h11 : responses 11 = resultResponse rs) :
    ∀ fuel attempt, attempt + fuel = MAX_POLL_ATTEMPTS → 0 < fuel →
      pollFrom responses body attempt fuel =
        ⟨PollOutcome.rows rs, List.replicate fuel body,
          List.replicate (fuel - 1) POLL_INTERVAL_MS⟩ := by
  intro fuel
  induction fuel with
  | zero =>
      intro attempt _ h0
      exact absurd h0 (lt_irrefl 0)
  | succ n ih =>
      intro attempt hsum _
      rw [pollFrom]
      cases n with
      | zero =>
          have ha : attempt = 11 := by
            simp [MAX_POLL_ATTEMPTS] at hsum
            omega
          subst ha
          simp [h11, resultResponse]
      | succ m =>
          have ha : attempt < 11 := by
            simp [MAX_POLL_ATTEMPTS] at hsum
            omega
          have hlt : attempt < MAX_POLL_ATTEMPTS - 1 := by
            simp [MAX_POLL_ATTEMPTS]
            omega
          rw [ih (attempt + 1) (by omega) (by omega)] at *
          simp [h attempt ha, jobResponse, hlt, List.replicate_succ]

/-- C1: the poll client is bounded by exactly 12 attempts with a fixed
5000 ms inter-attempt delay. A backend answering a job on each of the
first 11 submissions and a completed result on the 12th makes the client
return those rows after exactly 12 submissions and 11 delays; a backend
always answering a job makes the client fail with the timeout outcome
after exactly 12 submissions; every delay equals 5000 ms, so the delay
never grows between attempts. -/
theorem poll_client_bounded_attempts_fixed_delay
    (responses1 responses2 : Nat → StmoResponse) (d : String) (rs : List JsVal)
    (h1 : ∀ i, i < 11 → responses1 i = jobResponse)
    (h2 : responses1 11 = resultResponse rs)
    (h3 : ∀ i, responses2 i = jobResponse) :
    fetchBenchmarkRows responses1 d =
      ⟨PollOutcome.rows rs, List.replicate 12 ⟨d, 86400⟩,
        List.replicate 11 POLL_INTERVAL_MS⟩ ∧
    fetchBenchmarkRows responses2 d =
      ⟨PollOutcome.timedOut, List.replicate 12 ⟨d, 86400⟩,
        List.replicate 11 POLL_INTERVAL_MS⟩ := by
  constructor
  · have h := pollFrom_job_then_result responses1 ⟨d, 86400⟩ rs h1 h2
      MAX_POLL_ATTEMPTS 0 (by simp) (by simp [MAX_POLL_ATTEMPTS])
    rw [fetchBenchmarkRows, h]
    simp [MAX_POLL_ATTEMPTS]
  · have h := pollFrom_all_job responses2 ⟨d, 86400⟩ h3
      MAX_POLL_ATTEMPTS 0 (by simp) (by simp [MAX_POLL_ATTEMPTS])
    rw [fetchBenchmarkRows, h]
    simp [MAX_POLL_ATTEMPTS]

/-- Witness for C1 at a concrete backend pair. -/
theorem poll_client_bounded_attempts_fixed_delay_witness :
    fetchBenchmarkRows
        (fun i => if i < 11 then jobResponse else resultResponse [JsVal.num 1])
        "2026-01-01" =
      ⟨PollOutcome.rows [JsVal.num 1], List.replicate 12 ⟨"2026-01-01", 86400⟩,
        List.replicate 11 POLL_INTERVAL_MS⟩ ∧
    fetchBenchmarkRows (fun _ => jobResponse) "2026-01-01" =
      ⟨PollOutcome.timedOut, List.replicate 12 ⟨"2026-01-01", 86400⟩,
        List.replicate 11 POLL_INTERVAL_MS⟩ :=
  poll_client_bounded_attempts_fixed_delay _ _ "2026-01-01" [JsVal.num 1]
    (fun i hi => by simp [hi]) (by simp) (fun _ => rfl)

/-- C2 (code bug): on a pending response the client does not re-submit
with max_age 0; it re-POSTs the body built once before the loop, so
against an always-pending backend all 12 submissions carry max_age 86400. -/
theorem resubmission_keeps_original_max_age :
    ((fetchBenchmarkRows (fun _ => jobResponse) "2026-01-01").requests.map
      (fun r => r.max_age)) = List.replicate 12 86400 ∧ (86400 : Nat) ≠ 0 := by
  constructor
  · rfl
  · decide

/-- C8 counterexample: a first response whose query_result is present but
whose data object is absent makes the client fail with a TypeError, not
return the empty row sequence. -/
theorem result_without_data_object_fails :
    (fetchBenchmarkRows (fun _ => ⟨true, 200, "OK", some ⟨none⟩, false⟩)
        "2026-01-01").outcome = PollOutcome.typeError ∧
    (fetchBenchmarkRows (fun _ => ⟨true, 200, "OK", some ⟨none⟩, false⟩)
        "2026-01-01").outcome ≠ PollOutcome.rows [] := by
  constructor
  · rfl
  · decide

/-- C8 (amended): a submission answered with a completed result payload
whose data object is present terminates the client successfully with the
payload's rows, or the empty sequence when the row collection is absent;
when the payload's data object itself is absent the client fails with a
TypeError instead; a response with neither result nor job terminates with
the unexpected-format failure. -/
theorem result_and_malformed_response_handling
    (responses : Nat → StmoResponse) (d : String)
    (hok : (responses 0).ok = true) :
    (∀ qr rd, (responses 0).query_result = some qr → qr.data = some rd →
      fetchBenchmarkRows responses d =
        ⟨PollOutcome.rows (rd.rows.getD []), [⟨d, 86400⟩], []⟩) ∧
    ((responses 0).query_result = some ⟨none⟩ →
      fetchBenchmarkRows responses d = ⟨PollOutcome.typeError, [⟨d, 86400⟩], []⟩) ∧
    ((responses 0).query_result = none → (responses 0).job = false →
      fetchBenchmarkRows responses d =
        ⟨PollOutcome.unexpectedFormat, [⟨d, 86400⟩], []⟩) := by
  refine ⟨?_, ?_, ?_⟩
  · intro qr rd hq hd
    simp only [fetchBenchmarkRows]
    rw [show MAX_POLL_ATTEMPTS = 11 + 1 from rfl, pollFrom]
    simp [hok, hq, hd]
  · intro hq
    simp only [fetchBenchmarkRows]
    rw [show MAX_POLL_ATTEMPTS = 11 + 1 from rfl, pollFrom]
    simp [hok, hq]
  · intro hq hj
    simp only [fetchBenchmarkRows]
    rw [show MAX_POLL_ATTEMPTS = 11 + 1 from rfl, pollFrom]
    simp [hok, hq, hj]

/-- Witness for C8 (amended) at concrete responses. -/
theorem result_and_malformed_response_handling_witness :
    fetchBenchmarkRows
        (fun _ => ⟨true, 200, "OK", some ⟨some ⟨some [JsVal.num 3]⟩⟩, false⟩)
        "2026-01-01" =
      ⟨PollOutcome.rows [JsVal.num 3], [⟨"2026-01-01", 86400⟩], []⟩ ∧
    fetchBenchmarkRows (fun _ => ⟨true, 200, "OK", none, false⟩) "2026-01-01" =
      ⟨PollOutcome.unexpectedFormat, [⟨"2026-01-01", 86400⟩], []⟩ := by
  constructor
  · have h := (result_and_malformed_response_handling
        (fun _ => ⟨true, 200, "OK", some ⟨some ⟨some [JsVal.num 3]⟩⟩, false⟩)
        "2026-01-01" rfl).1 ⟨some ⟨some [JsVal.num 3]⟩⟩ ⟨some [JsVal.num 3]⟩ rfl rfl
    simpa using h
  · exact (result_and_malformed_response_handling
        (fun _ => ⟨true, 200, "OK", none, false⟩) "2026-01-01" rfl).2.2 rfl rfl

/-- C3 counterexample: the cache holds a valid (unexpired) entry for the
key, yet cachedFetch invokes the producer, because the stored value is
null and the wrapper distinguishes hit from miss by comparing to null. -/
theorem valid_null_entry_still_invokes_producer :
    assocFind [("k", (⟨JsVal.null, 100, 0⟩ : CacheEntry))] "k" =
      some ⟨JsVal.null, 100, 0⟩ ∧
    (50 : Nat) ≤ 100 ∧
    (cachedFetch [("k", ⟨JsVal.null, 100, 0⟩)] 50 "k"
        (Except.ok (JsVal.num 7)) CACHE_TTL).2.2 = 1 ∧
    (cachedFetch [("k", ⟨JsVal.null, 100, 0⟩)] 50 "k"
        (Except.ok (JsVal.num 7)) CACHE_TTL).1 = Except.ok (JsVal.num 7) := by
  exact ⟨rfl, by decide, rfl, rfl⟩

/-- C3 (amended): on a valid cache entry whose stored value is not null,
cachedFetch resolves with the cached value, leaves the cache unchanged and
never invokes the producer; whenever the lookup yields null (no valid
non-null entry), cachedFetch runs the producer exactly once, stores its
result under the key with the given ttl, and resolves with that result,
after which the cache holds that result under the key. -/
theorem cachedFetch_hit_and_miss
    (c : Cache) (now : Nat) (key : String) (ttl : Nat) :
    (∀ e p, assocFind c key = some e → now ≤ e.expiry → e.data ≠ JsVal.null →
      cachedFetch c now key p ttl = (Except.ok e.data, c, 0)) ∧
    (∀ v, (getCached c now key).1 = JsVal.null →
      cachedFetch c now key (Except.ok v) ttl =
        (Except.ok v, setCache (getCached c now key).2 now key v ttl, 1) ∧
      assocFind (cachedFetch c now key (Except.ok v) ttl).2.1 key =
        some ⟨v, now + ttl, now⟩) := by
  constructor
  · intro e p hfind hexp hdata
    have hni : ¬ now > e.expiry := by omega
    simp [cachedFetch, getCached, hfind, hni, hdata]
  · intro v hmiss
    have h1 : cachedFetch c now key (Except.ok v) ttl =
        (Except.ok v, setCache (getCached c now key).2 now key v ttl, 1) := by
      simp [cachedFetch, hmiss]
    refine ⟨h1, ?_⟩
    rw [h1]
    simp [setCache, assocFind_assocSet_self]

/-- Witness for C3 (amended): a concrete hit and a concrete miss. -/
theorem cachedFetch_hit_and_miss_witness :
    cachedFetch [("k", ⟨JsVal.num 5, 100, 0⟩)] 50 "k" (Except.error "boom")
        CACHE_TTL = (Except.ok (JsVal.num 5), [("k", ⟨JsVal.num 5, 100, 0⟩)], 0) ∧
    cachedFetch [] 0 "k" (Except.ok (JsVal.num 9)) 1000 =
      (Except.ok (JsVal.num 9), setCache [] 0 "k" (JsVal.num 9) 1000, 1) := by
  constructor
  · exact (cachedFetch_hit_and_miss [("k", ⟨JsVal.num 5, 100, 0⟩)] 50 "k"
      CACHE_TTL).1 ⟨JsVal.num 5, 100, 0⟩ _ rfl (by decide) (by decide)
  · exact ((cachedFetch_hit_and_miss [] 0 "k" 1000).2 (JsVal.num 9) rfl).1

/-- C4 counterexample: with an already-expired entry under the key, a
failing producer leaves the cache changed — the lookup evicted the
expired entry — so the cache state is not literally unchanged. -/
theorem failing_producer_after_expired_entry_changes_cache :
    (cachedFetch [("k", ⟨JsVal.num 1, 10, 0⟩)] 50 "k" (Except.error "HTTP 500")
        CACHE_TTL).2.1 = [] ∧
    ([] : Cache) ≠ [("k", ⟨JsVal.num 1, 10, 0⟩)] := by
  exact ⟨rfl, by decide⟩

/-- C4 (amended): when the lookup misses and the producer fails, the
promise rejects with that same failure, the producer ran exactly once, no
entry is created or overwritten for the key — the cache is unchanged
except possibly for the eviction of an already-expired entry under the
key by the lookup itself — and a subsequent call with the same key
invokes the producer again (no negative caching). -/
theorem cachedFetch_failing_producer
    (c : Cache) (now : Nat) (key : String) (ttl : Nat) (msg : String)
    (hnd : (c.map Prod.fst).Nodup)
    (hmiss : (getCached c now key).1 = JsVal.null) :
    cachedFetch c now key (Except.error msg) ttl =
      (Except.error msg, (getCached c now key).2, 1) ∧
    ((getCached c now key).2 = c ∨ (getCached c now key).2 = assocDelete c key) ∧
    (∀ p, (cachedFetch (cachedFetch c now key (Except.error msg) ttl).2.1
        now key p ttl).2.2 = 1) := by
  have h1 : cachedFetch c now key (Except.error msg) ttl =
      (Except.error msg, (getCached c now key).2, 1) := by
    simp [cachedFetch, hmiss]
  refine ⟨h1, ?_, ?_⟩
  · cases hfind : assocFind c key with
    | none =>
        left
        simp [getCached, hfind]
    | some e =>
        by_cases hexp : now > e.expiry
        · right
          simp [getCached, hfind, hexp]
        · left
          simp [getCached, hfind, hexp]
  · intro p
    rw [h1]
    have h2 := getCached_miss_again hnd hmiss
    cases p <;> simp [cachedFetch, h2]

/-- Witness for C4 (amended) at an expired concrete entry. -/
theorem cachedFetch_failing_producer_witness :
    cachedFetch [("k", ⟨JsVal.num 1, 10, 0⟩)] 50 "k" (Except.error "HTTP 500")
        CACHE_TTL =
      (Except.error "HTTP 500",
        (getCached [("k", ⟨JsVal.num 1, 10, 0⟩)] 50 "k").2, 1) :=
  (cachedFetch_failing_producer [("k", ⟨JsVal.num 1, 10, 0⟩)] 50 "k" CACHE_TTL
    "HTTP 500" (by simp) rfl).1

/-- C9: a producer resolving null gets stored under the key, but the
stored null can never be served from cache: the lookup returns null both
for an absent entry and for a stored null, the wrapper compares against
null, so every later cachedFetch for the key within the ttl still misses
and runs its own producer. -/
theorem stored_null_always_misses
    (c : Cache) (now : Nat) (key : String) (ttl : Nat)
    (hmiss : (getCached c now key).1 = JsVal.null) :
    (cachedFetch c now key (Except.ok JsVal.null) ttl).1 = Except.ok JsVal.null ∧
    assocFind (cachedFetch c now key (Except.ok JsVal.null) ttl).2.1 key =
      some ⟨JsVal.null, now + ttl, now⟩ ∧
    ∀ now2 p, now2 ≤ now + ttl →
      (cachedFetch (cachedFetch c now key (Except.ok JsVal.null) ttl).2.1
          now2 key p ttl).2.2 = 1 := by
  have h1 : cachedFetch c now key (Except.ok JsVal.null) ttl =
      (Except.ok JsVal.null, setCache (getCached c now key).2 now key JsVal.null ttl, 1) := by
    simp [cachedFetch, hmiss]
  refine ⟨by rw [h1], ?_, ?_⟩
  · rw [h1]
    simp [setCache, assocFind_assocSet_self]
  · intro now2 p hle
    rw [h1]
    have hfind : assocFind (setCache (getCached c now key).2 now key JsVal.null ttl)
        key = some ⟨JsVal.null, now + ttl, now⟩ := by
      simp [setCache, assocFind_assocSet_self]
    have hni : ¬ now + ttl < now2 := by omega
    have hg : getCached (setCache (getCached c now key).2 now key JsVal.null ttl)
        now2 key =
        (JsVal.null, setCache (getCached c now key).2 now key JsVal.null ttl) := by
      rw [getCached, hfind]
      simp [hni]
    cases p <;> simp [cachedFetch, hg]

/-- Witness for C9 on the empty cache. -/
theorem stored_null_always_misses_witness :
    (cachedFetch [] 0 "k" (Except.ok JsVal.null) 1000).1 = Except.ok JsVal.null ∧
    assocFind (cachedFetch [] 0 "k" (Except.ok JsVal.null) 1000).2.1 "k" =
      some ⟨JsVal.null, 1000, 0⟩ := by
  have h := stored_null_always_misses [] 0 "k" 1000 rfl
  exact ⟨h.1, h.2.1⟩

/-- C6: after set(key, v, ttl) at time t1, a get at any time t2 within
the ttl returns the value with the cache unchanged; a get at a time t3
more than ttl past t1 returns null and evicts the entry as a side effect,
so the following stats() no longer lists the key; a get on a never-stored
key returns null with no side effect. The Nodup hypothesis is the key
uniqueness invariant of the underlying JS Map. -/
theorem ttl_cache_set_get_expiry
    (c : Cache) (key : String) (v : JsVal) (ttl t1 t2 t3 : Nat)
    (hnd : (c.map Prod.fst).Nodup) :
    (t2 ≤ t1 + ttl →
      getCached (setCache c t1 key v ttl) t2 key = (v, setCache c t1 key v ttl)) ∧
    (t1 + ttl < t3 →
      getCached (setCache c t1 key v ttl) t3 key =
        (JsVal.null, assocDelete (setCache c t1 key v ttl) key) ∧
      key ∉ (getCacheStats (getCached (setCache c t1 key v ttl) t3 key).2).keys) ∧
    (assocFind c key = none → getCached c t2 key = (JsVal.null, c)) := by
  have hfind : assocFind (setCache c t1 key v ttl) key = some ⟨v, t1 + ttl, t1⟩ := by
    simp [setCache, assocFind_assocSet_self]
  refine ⟨?_, ?_, ?_⟩
  · intro hle
    have hni : ¬ t1 + ttl < t2 := by omega
    rw [getCached, hfind]
    simp [hni]
  · intro hgt
    have heg : getCached (setCache c t1 key v ttl) t3 key =
        (JsVal.null, assocDelete (setCache c t1 key v ttl) key) := by
      rw [getCached, hfind]
      simp [hgt]
    refine ⟨heg, ?_⟩
    rw [heg]
    have hnd2 : ((setCache c t1 key v ttl).map Prod.fst).Nodup :=
      assocSet_nodup _ _ hnd
    simpa [getCacheStats] using not_mem_assocDelete_map_fst hnd2
  · intro hnone
    simp [getCached, hnone]

/-- Witness for C6 at a concrete key, value and times. -/
theorem ttl_cache_set_get_expiry_witness :
    getCached (setCache [] 0 "k" (JsVal.num 3) 100) 50 "k" =
      (JsVal.num 3, setCache [] 0 "k" (JsVal.num 3) 100) ∧
    "k" ∉ (getCacheStats
      (getCached (setCache [] 0 "k" (JsVal.num 3) 100) 200 "k").2).keys := by
  have h := ttl_cache_set_get_expiry [] "k" (JsVal.num 3) 100 0 50 200 (by simp)
  exact ⟨h.1 (by omega), (h.2.1 (by omega)).2⟩

/-- C5: the cache-key builder is deterministic in the set of parameters:
for mappings that are set-equal (same pairs, possibly in another order,
with no duplicate names — the invariant of a JS object), it yields the
same key; and the perf-impact scenario renders as specified. -/
theorem generateCacheKey_order_independent
    (ns : String) (p1 p2 : List (String × String))
    (hperm : p1.Perm p2) (hnd : (p1.map Prod.fst).Nodup) :
    generateCacheKey ns p1 = generateCacheKey ns p2 ∧
    generateCacheKey "perf-impact" [("impactLevel", "high")] =
      "perf-impact:impactLevel=high" := by
  constructor
  · have hkeys : (p1.map Prod.fst).Perm (p2.map Prod.fst) := hperm.map _
    have hsorted : (p1.map Prod.fst).insertionSort (fun a b => a ≤ b) =
        (p2.map Prod.fst).insertionSort (fun a b => a ≤ b) := by
      apply @List.eq_of_perm_of_sorted String (fun a b => a ≤ b)
        ⟨fun a b hab hba => le_antisymm hab hba⟩
      · exact ((List.perm_insertionSort _ _).trans hkeys).trans
          (List.perm_insertionSort _ _).symm
      · exact List.sorted_insertionSort _ _
      · exact List.sorted_insertionSort _ _
    have hlook : ∀ k, assocFind p1 k = assocFind p2 k := assocFind_perm hperm hnd
    simp only [generateCacheKey, hsorted, hlook]
  · rfl

/-- Witness for C5: two set-equal two-parameter mappings. -/
theorem generateCacheKey_order_independent_witness :
    generateCacheKey "ns" [("b", "2"), ("a", "1")] =
      generateCacheKey "ns" [("a", "1"), ("b", "2")] :=
  (generateCacheKey_order_independent "ns" [("b", "2"), ("a", "1")]
    [("a", "1"), ("b", "2")] (List.Perm.swap _ _ _) (by decide)).1

/-! ### Lemmas about characters of generated cache keys -/

theorem mem_data_append_left {s t : String} {ch : Char} (h : ch ∈ s.data) :
    ch ∈ (s ++ t).data := by
  rw [String.data_append]
  exact List.mem_append_left _ h

theorem mem_data_append_right {s t : String} {ch : Char} (h : ch ∈ t.data) :
    ch ∈ (s ++ t).data := by
  rw [String.data_append]
  exact List.mem_append_right _ h

theorem eq_char_mem_joinSep :
    ∀ l : List String, l ≠ [] → (∀ s ∈ l, '=' ∈ s.data) →
      '=' ∈ (joinSep "&" l).data
  | [], hne, _ => absurd rfl hne
  | [x], _, h => by
      rw [joinSep]
      exact h x (by simp)
  | x :: y :: xs, _, h => by
      rw [joinSep]
      exact mem_data_append_left (mem_data_append_left (h x (by simp)))

theorem eq_char_mem_generateCacheKey (ns : String) {params : List (String × String)}
    (hne : params ≠ []) : '=' ∈ (generateCacheKey ns params).data := by
  rw [generateCacheKey]
  apply mem_data_append_right
  apply eq_char_mem_joinSep
  · intro hcon
    rw [List.map_eq_nil_iff] at hcon
    have hlen := List.length_insertionSort (fun a b => a ≤ b) (params.map Prod.fst)
    rw [hcon] at hlen
    simp at hlen
    exact hne (List.length_eq_zero.mp hlen.symm)
  · intro s hs
    rcases List.mem_map.mp hs with ⟨key, _, hrend⟩
    rw [← hrend]
    exact mem_data_append_left (mem_data_append_right (by decide))

theorem generateCacheKey_ne_of_no_eq_char (ns : String)
    {params : List (String × String)} (hne : params ≠ []) {t : String}
    (ht : '=' ∉ t.data) : generateCacheKey ns params ≠ t :=
  fun he => ht (he ▸ eq_char_mem_generateCacheKey ns hne)

theorem assocSet_ne_nil {α : Type} (m : List (String × α)) (k : String) (v : α) :
    assocSet m k v ≠ [] := by
  cases m with
  | nil => simp [assocSet]
  | cons hd tl =>
      obtain ⟨k1, w⟩ := hd
      by_cases h : k1 = k <;> simp [assocSet, h]

theorem objSpread_ne_nil :
    ∀ (extra base : List (String × String)), base ≠ [] → objSpread base extra ≠ []
  | [], base, h => by simpa [objSpread] using h
  | kv :: tl, base, _ => by
      rw [objSpread, List.foldl_cons]
      exact objSpread_ne_nil tl (assocSet base kv.1 kv.2) (assocSet_ne_nil base kv.1 kv.2)

theorem cachedFetch_count_on_absent (c : Cache) (now : Nat) (key : String)
    (v : JsVal) (ttl : Nat) (h : assocFind c key = none) :
    cachedFetch c now key (Except.ok v) ttl =
      (Except.ok v, setCache c now key v ttl, 1) := by
  simp [cachedFetch, getCached, h]

/-- C10: the no-argument clearPerformanceImpactCache call deletes only the
literal keys perf-impact:high, perf-impact:medium and perf-impact:low;
every key the two perf-impact fetch functions store under is derived via
generateCacheKey from a nonempty parameter mapping and therefore contains
an equals sign, which none of those literals does — so for every cache
state the entries of both fetch functions are left unchanged. -/
theorem clear_without_level_misses_fetch_keys
    (c : Cache) (lvl : String) (extra1 extra2 : List (String × String)) :
    assocFind (clearPerformanceImpactCache c none)
        (generateCacheKey "perf-impact" (objSpread [("impactLevel", lvl)] extra1)) =
      assocFind c
        (generateCacheKey "perf-impact" (objSpread [("impactLevel", lvl)] extra1)) ∧
    assocFind (clearPerformanceImpactCache c none)
        (generateCacheKey "perf-impact" (objSpread [("all", "true")] extra2)) =
      assocFind c
        (generateCacheKey "perf-impact" (objSpread [("all", "true")] extra2)) := by
  have hpres : ∀ params : List (String × String), params ≠ [] →
      assocFind (clearPerformanceImpactCache c none)
          (generateCacheKey "perf-impact" params) =
        assocFind c (generateCacheKey "perf-impact" params) := by
    intro params hne
    have h1 := generateCacheKey_ne_of_no_eq_char "perf-impact" hne
      (t := "perf-impact:high") (by decide)
    have h2 := generateCacheKey_ne_of_no_eq_char "perf-impact" hne
      (t := "perf-impact:medium") (by decide)
    have h3 := generateCacheKey_ne_of_no_eq_char "perf-impact" hne
      (t := "perf-impact:low") (by decide)
    rw [clearPerformanceImpactCache, clearCache, clearCache, clearCache,
      assocFind_assocDelete_ne _ h3, assocFind_assocDelete_ne _ h2,
      assocFind_assocDelete_ne _ h1]
  exact ⟨hpres _ (objSpread_ne_nil extra1 _ (by simp)),
    hpres _ (objSpread_ne_nil extra2 _ (by simp))⟩

/-- C7 counterexample: the priority-bugs refresh leaves the pre-refresh
cache entry in place, and a later default cached call for the same ids
returns the stale pre-refresh data, not the fresh result, within the ttl. -/
theorem priority_bugs_refresh_leaves_stale_entry :
    (handleRefreshPriorityBugs
        [("priority-bugs:ids=123", ⟨JsVal.arr [1], 300000, 0⟩)] 0 ["123"]
        (Except.ok (JsVal.arr [2]))).2 =
      [("priority-bugs:ids=123", ⟨JsVal.arr [1], 300000, 0⟩)] ∧
    (fetchBugsByIds ["123"] true
        [("priority-bugs:ids=123", ⟨JsVal.arr [1], 300000, 0⟩)] 1000
        (Except.ok (JsVal.arr [2])) CACHE_TTL).1 = Except.ok (JsVal.arr [1]) ∧
    JsVal.arr [1] ≠ JsVal.arr [2] := by
  refine ⟨rfl, ?_, by decide⟩
  rfl

/-- C7 (amended): the performance-impact refresh invalidates the entry
under its derived cache key and fetches live with useCache false, so a
later default cached call for that query misses and runs its producer
again; the priority-bugs refresh by contrast only bypasses the cache with
useCache false and performs no invalidation, leaving the cache exactly as
it was — so a later default cached call can still serve pre-refresh data. -/
theorem refresh_invalidation_asymmetry
    (c : Cache) (now now2 : Nat) (lvl : String) (net : Except String JsVal)
    (ids : List String) (net2 : Except String JsVal) (v : JsVal)
    (hnd : (c.map Prod.fst).Nodup) (hne : ids ≠ []) :
    (handleRefreshPerfImpact c now lvl net).1 = net ∧
    assocFind (handleRefreshPerfImpact c now lvl net).2
      (generateCacheKey "perf-impact" [("impactLevel", lvl)]) = none ∧
    (fetchBugsByPerformanceImpact lvl [] true
        (handleRefreshPerfImpact c now lvl net).2 now2
        (Except.ok v) CACHE_TTL).2.2 = 1 ∧
    (handleRefreshPriorityBugs c now ids net2).2 = c := by
  have hh : handleRefreshPerfImpact c now lvl net =
      (net, assocDelete c (generateCacheKey "perf-impact" [("impactLevel", lvl)])) := rfl
  have hfind : assocFind
      (assocDelete c (generateCacheKey "perf-impact" [("impactLevel", lvl)]))
      (generateCacheKey "perf-impact" [("impactLevel", lvl)]) = none :=
    assocFind_assocDelete_self hnd
  refine ⟨by rw [hh], by rw [hh]; exact hfind, ?_, ?_⟩
  · rw [hh]
    rw [show fetchBugsByPerformanceImpact lvl [] true
        (assocDelete c (generateCacheKey "perf-impact" [("impactLevel", lvl)])) now2
        (Except.ok v) CACHE_TTL =
      cachedFetch (assocDelete c (generateCacheKey "perf-impact" [("impactLevel", lvl)]))
        now2 (generateCacheKey "perf-impact" [("impactLevel", lvl)]) (Except.ok v)
        CACHE_TTL from rfl]
    rw [cachedFetch_count_on_absent _ _ _ _ _ hfind]
  · have hie : ids.isEmpty = false := by
      cases ids with
      | nil => exact absurd rfl hne
      | cons a tl => rfl
    rw [handleRefreshPriorityBugs, fetchBugsByIds]
    simp only [hie]
    rfl

/-- Witness for C7 (amended) at a concrete cache, level and id list. -/
theorem refresh_invalidation_asymmetry_witness :
    assocFind (handleRefreshPerfImpact
        [("perf-impact:impactLevel=high", ⟨JsVal.arr [1], 300000, 0⟩)] 0 "high"
        (Except.ok (JsVal.arr [2]))).2
      (generateCacheKey "perf-impact" [("impactLevel", "high")]) = none :=
  (refresh_invalidation_asymmetry
    [("perf-impact:impactLevel=high", ⟨JsVal.arr [1], 300000, 0⟩)] 0 0 "high"
    (Except.ok (JsVal.arr [2])) ["123"] (Except.ok (JsVal.arr [2])) (JsVal.num 0)
    (by simp) (by decide)).2.1
